import Mathlib

/-!
Verification of the `toroid` ASCII torus rasterizer (`src/lib.rs`).

Shallow embedding conventions:
* `f32` values are modelled as exact rationals (`ℚ`); every floating
  arithmetic operation of the source is modelled by the corresponding exact
  rational operation.  `core::f32::consts::TAU` is modelled by the exact
  rational value of that `f32` constant.
* The `u8` const-generic parameters of `Donut` become the fields of a
  `Config` record; the thirteen `char` parameters become thirteen `Char`
  fields, assembled into `BRIGHTNESS_RAMP` exactly as in the source.
* `as isize` casts of `f32` values are truncation toward zero (`ratTrunc`);
  the saturating behaviour at the extreme ends of the `isize` range is
  irrelevant for every quantity appearing here.
* Rust slices become `List`s; `slice::fill` becomes `List.map` with a
  constant function; indexed reads become `List.getD` and indexed writes
  become `List.set`.  In-bounds facts for every index the source uses are
  proved separately, so the `getD`/`set` defaults never matter.
* The mutable state of `Donut` (four `f32` fields) becomes a four-field
  structure; `rotate` and `render_frame_in_place` become pure functions.
-/

/-- The exact rational value of the `f32` constant `core::f32::consts::TAU`. -/
def TAU : ℚ := 13176795 / 2097152

/-- Truncation toward zero, the behaviour of Rust's `as isize` cast on an
in-range `f32` value: floor for nonnegative values, ceiling for negative
ones. -/
def ratTrunc (q : ℚ) : ℤ := if q < 0 then ⌈q⌉ else ⌊q⌋

/-- Rust's `isize::clamp(lo, hi)`: `min (max n lo) hi`. -/
def rustClamp (n lo hi : ℤ) : ℤ := min (max n lo) hi

/-- The const-generic parameters of `struct Donut<...>` in `src/lib.rs`
(lines 10-35): grid size, viewer distance, brightness factor, the two
angular step fractions, and the thirteen brightness-ramp characters. -/
structure Config where
  WIDTH : Nat
  HEIGHT : Nat
  VIEWER_DISTANCE : Nat
  BRIGHTNESS_FACTOR : Nat
  J_STEP_VALUE : Nat
  J_STEP_DENOM : Nat
  I_STEP_VALUE : Nat
  I_STEP_DENOM : Nat
  C0 : Char
  C1 : Char
  C2 : Char
  C3 : Char
  C4 : Char
  C5 : Char
  C6 : Char
  C7 : Char
  C8 : Char
  C9 : Char
  C10 : Char
  C11 : Char
  C12 : Char

/-- `Self::J_STEP` (lines 95-98): `J_STEP_VALUE` when the denominator is
`0` or `1` (the source matches `0 | 1`), otherwise the quotient. -/
def Config.J_STEP (cfg : Config) : ℚ :=
  if cfg.J_STEP_DENOM = 0 ∨ cfg.J_STEP_DENOM = 1 then (cfg.J_STEP_VALUE : ℚ)
  else (cfg.J_STEP_VALUE : ℚ) / (cfg.J_STEP_DENOM : ℚ)

/-- `Self::I_STEP` (lines 100-103). -/
def Config.I_STEP (cfg : Config) : ℚ :=
  if cfg.I_STEP_DENOM = 0 ∨ cfg.I_STEP_DENOM = 1 then (cfg.I_STEP_VALUE : ℚ)
  else (cfg.I_STEP_VALUE : ℚ) / (cfg.I_STEP_DENOM : ℚ)

/-- `Self::NUM_J` (lines 105-109) as a const evaluation that can fail:
`TAU / J_STEP` cast to `usize`, rounded up when fractional.  When
`J_STEP = 0` the `f32` division yields `+∞`, the saturating `as usize`
cast yields `usize::MAX`, and `+∞ > usize::MAX as f32` holds, so the
round-up branch computes `usize::MAX + 1` — an arithmetic overflow, which
in Rust const evaluation is a compile-time error raised whenever the
constant is used.  That failing evaluation is modelled by `none`. -/
def Config.NUM_J? (cfg : Config) : Option Nat :=
  if cfg.J_STEP = 0 then none
  else
    let x := TAU / cfg.J_STEP
    let n := (ratTrunc x).toNat
    some (if (n : ℚ) < x then n + 1 else n)

/-- `Self::NUM_I` (lines 111-115), with the same failing zero-step const
evaluation as `NUM_J?`. -/
def Config.NUM_I? (cfg : Config) : Option Nat :=
  if cfg.I_STEP = 0 then none
  else
    let x := TAU / cfg.I_STEP
    let n := (ratTrunc x).toNat
    some (if (n : ℚ) < x then n + 1 else n)

/-- The value of `Self::NUM_J` on configurations where its const
evaluation succeeds.  A configuration on which it fails cannot be used at
all (the program does not compile), so the `getD` default stands for no
behaviour. -/
def Config.NUM_J (cfg : Config) : Nat := (Config.NUM_J? cfg).getD 0

/-- The value of `Self::NUM_I` on configurations where its const
evaluation succeeds. -/
def Config.NUM_I (cfg : Config) : Nat := (Config.NUM_I? cfg).getD 0

/-- `Self::X_CENTER` (line 117). -/
def Config.X_CENTER (cfg : Config) : ℚ := (cfg.WIDTH : ℚ) / 2

/-- `Self::Y_CENTER` (line 118). -/
def Config.Y_CENTER (cfg : Config) : ℚ := (cfg.HEIGHT : ℚ) / 2

/-- `Self::X_SCALE` (line 120). -/
def Config.X_SCALE (cfg : Config) : ℚ := 30 * ((cfg.WIDTH : ℚ) / 80)

/-- `Self::Y_SCALE` (line 121). -/
def Config.Y_SCALE (cfg : Config) : ℚ := 15 * ((cfg.HEIGHT : ℚ) / 22)

/-- `Self::BRIGHTNESS_RAMP` (line 123): the thirteen ramp characters in
order. -/
def Config.BRIGHTNESS_RAMP (cfg : Config) : List Char :=
  [cfg.C0, cfg.C1, cfg.C2, cfg.C3, cfg.C4, cfg.C5, cfg.C6, cfg.C7, cfg.C8,
   cfg.C9, cfg.C10, cfg.C11, cfg.C12]

/-- The default const-generic arguments of `Donut` (lines 10-35). -/
def defaultConfig : Config where
  WIDTH := 80
  HEIGHT := 22
  VIEWER_DISTANCE := 5
  BRIGHTNESS_FACTOR := 8
  J_STEP_VALUE := 7
  J_STEP_DENOM := 100
  I_STEP_VALUE := 2
  I_STEP_DENOM := 100
  C0 := ' '
  C1 := '.'
  C2 := ','
  C3 := '-'
  C4 := '~'
  C5 := ':'
  C6 := ';'
  C7 := '='
  C8 := '!'
  C9 := '*'
  C10 := '#'
  C11 := '$'
  C12 := '@'

/-- The default configuration with a zero tube-angle step value: a
degenerate configuration that the source nevertheless accepts. -/
def cfgZero : Config := { defaultConfig with J_STEP_VALUE := 0 }

/-- A small configuration (4×4 grid, both steps equal to `7`, so each
sweep is a single iteration) used to instantiate theorems on concrete
inputs. -/
def tinyCfg : Config :=
  { defaultConfig with
      WIDTH := 4
      HEIGHT := 4
      J_STEP_DENOM := 1
      I_STEP_VALUE := 7
      I_STEP_DENOM := 1 }

/-- The mutable state of `struct Donut` (lines 36-42): the cached
cosine/sine pairs of the two rotation angles. -/
structure Donut where
  a_cos : ℚ
  a_sin : ℚ
  b_cos : ℚ
  b_sin : ℚ

/-- `Donut::new` (lines 126-133). -/
def Donut.new : Donut where
  a_cos := 1
  a_sin := 0
  b_cos := 1
  b_sin := 0

/-- One incremental trigonometric update with renormalization.  This is the
block that appears — with identical shape — twice in `rotate`
(lines 139-149 and 150-160) and twice as the loop-variable updates in
`render_frame_in_place` (lines 207-217 and 219-229):
first-order rotation `(c,s) ↦ (c - d·s, s + d·c)`, then both components
scaled by `(3 - (c'² + s'²)) / 2`. -/
def updatePair (c s d : ℚ) : ℚ × ℚ :=
  let c1 := c - d * s
  let s1 := s + d * c
  let norm := (3 - (c1 * c1 + s1 * s1)) / 2
  (c1 * norm, s1 * norm)

/-- `Donut::rotate` (lines 138-161): applies the incremental update to the
A pair with `da` and to the B pair with `db`. -/
def Donut.rotate (self : Donut) (da db : ℚ) : Donut where
  a_cos := (updatePair self.a_cos self.a_sin da).1
  a_sin := (updatePair self.a_cos self.a_sin da).2
  b_cos := (updatePair self.b_cos self.b_sin db).1
  b_sin := (updatePair self.b_cos self.b_sin db).2

/-- A sequence of `rotate` calls, one per element of `ds`. -/
def applyRotates (s : Donut) (ds : List (ℚ × ℚ)) : Donut :=
  ds.foldl (fun t p => t.rotate p.1 p.2) s

/-- One surface sample that passed the on-screen guard of
`render_frame_in_place`: its destination cell, its closeness `d`, and the
ramp glyph selected by the (clamped) luminance index. -/
structure Sample where
  idx : Nat
  d : ℚ
  glyph : Char

/-- The geometric part of one inner-loop iteration of
`render_frame_in_place` (lines 185-204): torus point, rotation, projection,
the screen guard (line 192), the cell index (line 193) and the luminance
glyph (lines 198-204).  Returns `none` when the projected point is
off-screen. -/
def sampleAt (cfg : Config) (sa ca sb cb jc js ic is : ℚ) : Option Sample :=
  let h := jc + 2
  let t := is * h * ca - js * sa
  let d := 1 / (is * h * sa + js * ca + (cfg.VIEWER_DISTANCE : ℚ))
  let x := ratTrunc (cfg.X_CENTER + cfg.X_SCALE * d * (ic * h * cb - t * sb))
  let y := ratTrunc (cfg.Y_CENTER + cfg.Y_SCALE * d * (ic * h * sb + t * cb))
  if 0 ≤ x ∧ x < (cfg.WIDTH : ℤ) ∧ 0 ≤ y ∧ y < (cfg.HEIGHT : ℤ) then
    let idx := (y * (cfg.WIDTH : ℤ) + x).toNat
    let n := ratTrunc ((cfg.BRIGHTNESS_FACTOR : ℚ) *
      ((js * sa - is * jc * ca) * cb - is * jc * sa - js * ca - ic * jc * sb))
    some { idx := idx
           d := d
           glyph := cfg.BRIGHTNESS_RAMP.getD ((rustClamp n 0 12).toNat) ' ' }
  else
    none

/-- The buffer-writing part of one inner-loop iteration (lines 195-205):
the strict depth test `d > zbuf[idx]` and, when it succeeds, the writes to
the depth and glyph buffers. -/
def applyOne (bufs : List Char × List ℚ) (os : Option Sample) :
    List Char × List ℚ :=
  match os with
  | none => bufs
  | some s =>
    if s.d > bufs.2.getD s.idx 0 then
      (bufs.1.set s.idx s.glyph, bufs.2.set s.idx s.d)
    else
      bufs

/-- Folding a list of (optional) samples over the buffers. -/
def applySamples (bufs : List Char × List ℚ) (l : List (Option Sample)) :
    List Char × List ℚ :=
  l.foldl applyOne bufs

/-- The inner `for` loop of `render_frame_in_place` (lines 184-218): `NUM_I`
iterations carrying the `(i_cos, i_sin)` pair, each applying one sample to
the buffers and then advancing the pair by `I_STEP` (lines 207-217). -/
def innerLoop (cfg : Config) (sa ca sb cb jc js : ℚ) :
    Nat → ℚ → ℚ → List Char × List ℚ → List Char × List ℚ
  | 0, _, _, bufs => bufs
  | Nat.succ k, ic, is, bufs =>
    innerLoop cfg sa ca sb cb jc js k
      (updatePair ic is cfg.I_STEP).1 (updatePair ic is cfg.I_STEP).2
      (applyOne bufs (sampleAt cfg sa ca sb cb jc js ic is))

/-- The outer `for` loop of `render_frame_in_place` (lines 180-230): `NUM_J`
iterations carrying the `(j_cos, j_sin)` pair, each running the inner loop
from `(1, 0)` and then advancing the pair by `J_STEP` (lines 219-229). -/
def outerLoop (cfg : Config) (sa ca sb cb : ℚ) :
    Nat → ℚ → ℚ → List Char × List ℚ → List Char × List ℚ
  | 0, _, _, bufs => bufs
  | Nat.succ k, jc, js, bufs =>
    outerLoop cfg sa ca sb cb k
      (updatePair jc js cfg.J_STEP).1 (updatePair jc js cfg.J_STEP).2
      (innerLoop cfg sa ca sb cb jc js cfg.NUM_I 1 0 bufs)

/-- `Donut::render_frame_in_place` (lines 170-231): fill the glyph buffer
with the background glyph `C0` and the depth buffer with `0` (lines
171-172), read the four orientation fields (lines 174-175), then run the
two nested sweeps starting from `(j_cos, j_sin) = (1, 0)` (lines 177-178). -/
def Donut.render_frame_in_place (cfg : Config) (self : Donut)
    (output : List Char) (zbuf : List ℚ) : List Char × List ℚ :=
  outerLoop cfg self.a_sin self.a_cos self.b_sin self.b_cos cfg.NUM_J 1 0
    (output.map (fun _ => cfg.C0), zbuf.map (fun _ => (0 : ℚ)))

/-- The same inner sweep as `innerLoop`, producing the per-iteration
optional samples instead of mutating buffers. -/
def innerTrace (cfg : Config) (sa ca sb cb jc js : ℚ) :
    Nat → ℚ → ℚ → List (Option Sample)
  | 0, _, _ => []
  | Nat.succ k, ic, is =>
    sampleAt cfg sa ca sb cb jc js ic is ::
      innerTrace cfg sa ca sb cb jc js k
        (updatePair ic is cfg.I_STEP).1 (updatePair ic is cfg.I_STEP).2

/-- The same outer sweep as `outerLoop`, producing the full sample trace. -/
def outerTrace (cfg : Config) (sa ca sb cb : ℚ) :
    Nat → ℚ → ℚ → List (Option Sample)
  | 0, _, _ => []
  | Nat.succ k, jc, js =>
    innerTrace cfg sa ca sb cb jc js cfg.NUM_I 1 0 ++
      outerTrace cfg sa ca sb cb k
        (updatePair jc js cfg.J_STEP).1 (updatePair jc js cfg.J_STEP).2

/-- All samples generated during one call of `render_frame_in_place` for a
given orientation, in generation order. -/
def Donut.samples (cfg : Config) (self : Donut) : List (Option Sample) :=
  outerTrace cfg self.a_sin self.a_cos self.b_sin self.b_cos cfg.NUM_J 1 0

/-- The closeness values of all samples of a frame that mapped to cell `k`,
in generation order. -/
def cellDepths (k : Nat) (l : List (Option Sample)) : List ℚ :=
  ((l.filterMap id).filter (fun s => s.idx == k)).map Sample.d

/-- `true` when no sample of the frame lands on cell `k` with positive
closeness, i.e. the cell holds no visible surface point. -/
def cellVacant (cfg : Config) (self : Donut) (k : Nat) : Bool :=
  ((Donut.samples cfg self).filterMap id).all
    (fun s => !(s.idx == k) || decide (s.d ≤ 0))

/-- `true` when an optional sample is either off-screen or targets a cell
index strictly below `WIDTH * HEIGHT`. -/
def sampleInBounds (cfg : Config) (os : Option Sample) : Bool :=
  match os with
  | none => true
  | some s => decide (s.idx < cfg.WIDTH * cfg.HEIGHT)

/-- `true` when every sample of a trace is in bounds. -/
def samplesInBounds (cfg : Config) (l : List (Option Sample)) : Bool :=
  l.all (sampleInBounds cfg)

/-- Both cached pairs are within `10⁻⁴` of unit norm. -/
def normOk (s : Donut) : Prop :=
  |s.a_cos ^ 2 + s.a_sin ^ 2 - 1| ≤ 1 / 10000 ∧
  |s.b_cos ^ 2 + s.b_sin ^ 2 - 1| ≤ 1 / 10000

/-- `true` when every rotation delta of the sequence is small
(`|δ| ≤ 1/10`). -/
def smallDeltas (ds : List (ℚ × ℚ)) : Bool :=
  ds.all (fun p => decide (|p.1| ≤ 1 / 10) && decide (|p.2| ≤ 1 / 10))

/-- Orientation states reachable from `Donut::new` by `rotate` calls with
small deltas. -/
inductive Reachable : Donut → Prop
  | base : Reachable Donut.new
  | step (s : Donut) (da db : ℚ) : Reachable s → |da| ≤ 1 / 10 →
      |db| ≤ 1 / 10 → Reachable (s.rotate da db)

lemma ratTrunc_eq_of (q : ℚ) (n : ℤ) (hn : 0 ≤ n) (h1 : (n : ℚ) ≤ q) (h2 : q < n + 1) :
    ratTrunc q = n := by
  have h0 : ¬ q < 0 := by
    push_neg
    calc (0:ℚ) ≤ (n:ℚ) := by exact_mod_cast hn
    _ ≤ q := h1
  rw [ratTrunc, if_neg h0, Int.floor_eq_iff]
  · exact ⟨h1, by exact_mod_cast h2⟩

lemma tiny_J_STEP : tinyCfg.J_STEP = 7 := by
  norm_num [Config.J_STEP, tinyCfg, defaultConfig]

lemma tiny_I_STEP : tinyCfg.I_STEP = 7 := by
  norm_num [Config.I_STEP, tinyCfg, defaultConfig]

lemma tiny_NUM_J? : Config.NUM_J? tinyCfg = some 1 := by
  have h1 : ratTrunc (TAU / tinyCfg.J_STEP) = 0 := by
    rw [tiny_J_STEP]
    exact ratTrunc_eq_of _ 0 le_rfl (by norm_num [TAU]) (by norm_num [TAU])
  rw [Config.NUM_J?, if_neg (by rw [tiny_J_STEP]; norm_num)]
  simp only [h1]
  rw [tiny_J_STEP]
  norm_num [TAU]

lemma tiny_NUM_J : tinyCfg.NUM_J = 1 := by
  rw [Config.NUM_J, tiny_NUM_J?]
  rfl

lemma tiny_NUM_I? : Config.NUM_I? tinyCfg = some 1 := by
  have h1 : ratTrunc (TAU / tinyCfg.I_STEP) = 0 := by
    rw [tiny_I_STEP]
    exact ratTrunc_eq_of _ 0 le_rfl (by norm_num [TAU]) (by norm_num [TAU])
  rw [Config.NUM_I?, if_neg (by rw [tiny_I_STEP]; norm_num)]
  simp only [h1]
  rw [tiny_I_STEP]
  norm_num [TAU]

lemma tiny_NUM_I : tinyCfg.NUM_I = 1 := by
  rw [Config.NUM_I, tiny_NUM_I?]
  rfl

lemma default_J_STEP : defaultConfig.J_STEP = 7 / 100 := by
  norm_num [Config.J_STEP, defaultConfig]

lemma default_I_STEP : defaultConfig.I_STEP = 2 / 100 := by
  norm_num [Config.I_STEP, defaultConfig]

lemma default_NUM_J? : Config.NUM_J? defaultConfig = some 90 := by
  have h1 : ratTrunc (TAU / defaultConfig.J_STEP) = 89 := by
    rw [default_J_STEP]
    exact ratTrunc_eq_of _ 89 (by norm_num) (by norm_num [TAU]) (by norm_num [TAU])
  rw [Config.NUM_J?, if_neg (by rw [default_J_STEP]; norm_num)]
  simp only [h1]
  rw [default_J_STEP]
  norm_num [TAU, show Int.toNat 89 = 89 from rfl]

lemma default_NUM_J : defaultConfig.NUM_J = 90 := by
  rw [Config.NUM_J, default_NUM_J?]
  rfl

lemma default_NUM_I? : Config.NUM_I? defaultConfig = some 315 := by
  have h1 : ratTrunc (TAU / defaultConfig.I_STEP) = 314 := by
    rw [default_I_STEP]
    exact ratTrunc_eq_of _ 314 (by norm_num) (by norm_num [TAU]) (by norm_num [TAU])
  rw [Config.NUM_I?, if_neg (by rw [default_I_STEP]; norm_num)]
  simp only [h1]
  rw [default_I_STEP]
  norm_num [TAU, show Int.toNat 314 = 314 from rfl]

lemma default_NUM_I : defaultConfig.NUM_I = 315 := by
  rw [Config.NUM_I, default_NUM_I?]
  rfl

lemma tiny_sample0 : sampleAt tinyCfg 0 1 0 1 1 0 1 0 =
    some { idx := 10, d := 1/5, glyph := ' ' } := by
  rw [sampleAt]
  norm_num [Config.X_CENTER, Config.Y_CENTER, Config.X_SCALE, Config.Y_SCALE,
    Config.BRIGHTNESS_RAMP, tinyCfg, defaultConfig, show Int.toNat 10 = 10 from rfl,
    show ratTrunc (29/10 : ℚ) = 2 from ratTrunc_eq_of _ 2 (by norm_num) (by norm_num) (by norm_num),
    show ratTrunc (2 : ℚ) = 2 from ratTrunc_eq_of _ 2 (by norm_num) (by norm_num) (by norm_num),
    show ratTrunc (0 : ℚ) = 0 from ratTrunc_eq_of _ 0 (by norm_num) (by norm_num) (by norm_num),
    rustClamp]

lemma applySamples_cons (bufs : List Char × List ℚ) (os : Option Sample) (l : List (Option Sample)) :
    applySamples bufs (os :: l) = applySamples (applyOne bufs os) l := rfl

lemma applySamples_append (bufs : List Char × List ℚ) (l1 l2 : List (Option Sample)) :
    applySamples bufs (l1 ++ l2) = applySamples (applySamples bufs l1) l2 :=
  List.foldl_append _ _ _ _

lemma innerLoop_eq_trace (cfg : Config) (sa ca sb cb jc js : ℚ) :
    ∀ (k : Nat) (ic is : ℚ) (bufs : List Char × List ℚ),
      innerLoop cfg sa ca sb cb jc js k ic is bufs =
        applySamples bufs (innerTrace cfg sa ca sb cb jc js k ic is) := by
  intro k
  induction k with
  | zero => intro ic is bufs; rfl
  | succ k ih =>
    intro ic is bufs
    rw [innerLoop, innerTrace, applySamples_cons]
    exact ih _ _ _

lemma outerLoop_eq_trace (cfg : Config) (sa ca sb cb : ℚ) :
    ∀ (k : Nat) (jc js : ℚ) (bufs : List Char × List ℚ),
      outerLoop cfg sa ca sb cb k jc js bufs =
        applySamples bufs (outerTrace cfg sa ca sb cb k jc js) := by
  intro k
  induction k with
  | zero => intro jc js bufs; rfl
  | succ k ih =>
    intro jc js bufs
    rw [outerLoop, outerTrace, applySamples_append, ← innerLoop_eq_trace]
    exact ih _ _ _

lemma render_decomp (cfg : Config) (self : Donut) (out : List Char) (z : List ℚ) :
    Donut.render_frame_in_place cfg self out z =
      applySamples (out.map (fun _ => cfg.C0), z.map (fun _ => (0 : ℚ)))
        (Donut.samples cfg self) := by
  rw [Donut.render_frame_in_place, Donut.samples, outerLoop_eq_trace]

lemma tiny_samples : Donut.samples tinyCfg Donut.new =
    [some { idx := 10, d := 1/5, glyph := ' ' }] := by
  rw [Donut.samples, Donut.new]
  rw [show Donut.mk 1 0 1 0 = { a_cos := 1, a_sin := 0, b_cos := 1, b_sin := 0 } from rfl]
  simp only [tiny_NUM_J]
  rw [outerTrace]
  simp only [tiny_NUM_I]
  rw [innerTrace, outerTrace, innerTrace]
  simp only [List.append_nil]
  rw [tiny_sample0]

lemma getD_set_self (l : List α) (i : Nat) (a d : α) (h : i < l.length) :
    (l.set i a).getD i d = a := by
  induction l generalizing i with
  | nil => simp at h
  | cons b t ih =>
    cases i with
    | zero => rfl
    | succ j =>
      simp only [List.set_cons_succ, List.getD_cons_succ]
      exact ih j (by simpa using h)

lemma getD_set_ne (l : List α) (i j : Nat) (a d : α) (h : i ≠ j) :
    (l.set i a).getD j d = l.getD j d := by
  induction l generalizing i j with
  | nil => rfl
  | cons b t ih =>
    cases i with
    | zero =>
      cases j with
      | zero => exact absurd rfl h
      | succ j2 => rfl
    | succ i2 =>
      cases j with
      | zero => rfl
      | succ j2 =>
        simp only [List.set_cons_succ, List.getD_cons_succ]
        exact ih i2 j2 (fun hc => h (by rw [hc]))

lemma mem_of_mem_set (l : List α) (i : Nat) (a x : α) (h : x ∈ l.set i a) :
    x = a ∨ x ∈ l := by
  induction l generalizing i with
  | nil => simp at h
  | cons b t ih =>
    cases i with
    | zero =>
      rcases List.mem_cons.1 h with h1 | h1
      · exact Or.inl h1
      · exact Or.inr (List.mem_cons_of_mem _ h1)
    | succ j =>
      rcases List.mem_cons.1 h with h1 | h1
      · exact Or.inr (h1 ▸ List.mem_cons_self _ _)
      · rcases ih j h1 with h2 | h2
        · exact Or.inl h2
        · exact Or.inr (List.mem_cons_of_mem _ h2)

lemma applySamples_length (l : List (Option Sample)) :
    ∀ bufs : List Char × List ℚ,
      (applySamples bufs l).1.length = bufs.1.length ∧
      (applySamples bufs l).2.length = bufs.2.length := by
  induction l with
  | nil => intro bufs; exact ⟨rfl, rfl⟩
  | cons os l ih =>
    intro bufs
    rw [applySamples_cons]
    rcases ih (applyOne bufs os) with ⟨h1, h2⟩
    rw [h1, h2]
    cases os with
    | none => exact ⟨rfl, rfl⟩
    | some s =>
      rw [applyOne]
      split
      · exact ⟨List.length_set _ _ _, List.length_set _ _ _⟩
      · exact ⟨rfl, rfl⟩

lemma cellDepths_cons_none (k : Nat) (l : List (Option Sample)) :
    cellDepths k (none :: l) = cellDepths k l := rfl

lemma cellDepths_cons_some_eq (k : Nat) (s : Sample) (l : List (Option Sample))
    (h : s.idx = k) :
    cellDepths k (some s :: l) = s.d :: cellDepths k l := by
  simp only [cellDepths, List.filterMap_cons, id]
  rw [List.filter_cons_of_pos (by simpa using h), List.map_cons]

lemma cellDepths_cons_some_ne (k : Nat) (s : Sample) (l : List (Option Sample))
    (h : ¬ s.idx = k) :
    cellDepths k (some s :: l) = cellDepths k l := by
  simp only [cellDepths, List.filterMap_cons, id]
  rw [List.filter_cons_of_neg (by simpa using h)]

lemma applySamples_depth (l : List (Option Sample)) :
    ∀ (bufs : List Char × List ℚ) (k : Nat), k < bufs.2.length →
      (applySamples bufs l).2.getD k 0 =
        (cellDepths k l).foldl max (bufs.2.getD k 0) := by
  induction l with
  | nil => intro bufs k _; rfl
  | cons os l ih =>
    intro bufs k hk
    cases os with
    | none => rw [applySamples_cons, cellDepths_cons_none]; exact ih _ _ hk
    | some s =>
      rw [applySamples_cons, applyOne]
      by_cases hidx : s.idx = k
      · rw [cellDepths_cons_some_eq k s l hidx, List.foldl_cons]
        split
        · rename_i hd
          have hlen : k < (bufs.2.set s.idx s.d).length := by
            rw [List.length_set]; exact hk
          rw [ih (bufs.1.set s.idx s.glyph, bufs.2.set s.idx s.d) k hlen]
          have : (bufs.2.set s.idx s.d).getD k 0 = s.d := by
            rw [← hidx] at hk ⊢
            exact getD_set_self _ _ _ _ hk
          rw [this, max_eq_right (le_of_lt (by rw [hidx] at hd; exact hd))]
        · rename_i hd
          rw [ih bufs k hk, max_eq_left]
          rw [hidx] at hd
          exact le_of_not_lt hd
      · rw [cellDepths_cons_some_ne k s l hidx]
        split
        · rename_i hd
          have hlen : k < (bufs.2.set s.idx s.d).length := by
            rw [List.length_set]; exact hk
          rw [ih (bufs.1.set s.idx s.glyph, bufs.2.set s.idx s.d) k hlen]
          rw [getD_set_ne _ _ _ _ _ hidx]
        · exact ih bufs k hk

lemma filterMap_id_cons_some (s : Sample) (l : List (Option Sample)) :
    (some s :: l).filterMap id = s :: l.filterMap id := rfl

lemma filterMap_id_cons_none (l : List (Option Sample)) :
    ((none : Option Sample) :: l).filterMap id = l.filterMap id := rfl

lemma foldl_max_mem (l : List ℚ) : ∀ a : ℚ, l.foldl max a = a ∨ l.foldl max a ∈ l := by
  induction l with
  | nil => intro a; exact Or.inl rfl
  | cons b t ih =>
    intro a
    rw [List.foldl_cons]
    rcases ih (max a b) with h | h
    · rcases max_choice a b with h2 | h2
      · exact Or.inl (h.trans h2)
      · rw [h, h2]; exact Or.inr (List.mem_cons_self _ _)
    · exact Or.inr (List.mem_cons_of_mem _ h)

lemma applyOne_tie (bufs : List Char × List ℚ) (s : Sample)
    (h : s.d = bufs.2.getD s.idx 0) : applyOne bufs (some s) = bufs := by
  rw [applyOne, if_neg]
  rw [h]
  exact lt_irrefl _

lemma applySamples_untouched (l : List (Option Sample)) :
    ∀ (bufs : List Char × List ℚ) (k : Nat) (d0 : Char),
      bufs.2.getD k 0 = 0 →
      (∀ s ∈ l.filterMap id, s.idx = k → s.d ≤ 0) →
      (applySamples bufs l).1.getD k d0 = bufs.1.getD k d0 ∧
      (applySamples bufs l).2.getD k 0 = 0 := by
  induction l with
  | nil => intro bufs k d0 hz _; exact ⟨rfl, hz⟩
  | cons os l ih =>
    intro bufs k d0 hz hvac
    cases os with
    | none =>
      rw [applySamples_cons]
      exact ih bufs k d0 hz (fun s hs => hvac s (filterMap_id_cons_none l ▸ hs))
    | some s =>
      have hvac2 : ∀ t ∈ l.filterMap id, t.idx = k → t.d ≤ 0 := by
        intro t ht
        exact hvac t (by rw [filterMap_id_cons_some]; exact List.mem_cons_of_mem _ ht)
      rw [applySamples_cons, applyOne]
      split
      · rename_i hd
        have hne : s.idx ≠ k := by
          intro he
          have h1 : s.d ≤ 0 := hvac s (by rw [filterMap_id_cons_some]; exact List.mem_cons_self _ _) he
          rw [he, hz] at hd
          exact absurd hd (not_lt.2 h1)
        have hz2 : (bufs.2.set s.idx s.d).getD k 0 = 0 := by
          rw [getD_set_ne _ _ _ _ _ hne]; exact hz
        rcases ih (bufs.1.set s.idx s.glyph, bufs.2.set s.idx s.d) k d0 hz2 hvac2 with ⟨h1, h2⟩
        constructor
        · rw [h1]; exact getD_set_ne _ _ _ _ _ hne
        · exact h2
      · exact ih bufs k d0 hz hvac2

lemma applySamples_glyphs (l : List (Option Sample)) (ramp : List Char) :
    ∀ bufs : List Char × List ℚ,
      (∀ x ∈ bufs.1, x ∈ ramp) →
      (∀ s ∈ l.filterMap id, s.glyph ∈ ramp) →
      ∀ x ∈ (applySamples bufs l).1, x ∈ ramp := by
  induction l with
  | nil => intro bufs hb _ x hx; exact hb x hx
  | cons os l ih =>
    intro bufs hb hg x hx
    cases os with
    | none =>
      rw [applySamples_cons] at hx
      exact ih bufs hb (fun s hs => hg s (filterMap_id_cons_none l ▸ hs)) x hx
    | some s =>
      have hg2 : ∀ t ∈ l.filterMap id, t.glyph ∈ ramp := by
        intro t ht
        exact hg t (by rw [filterMap_id_cons_some]; exact List.mem_cons_of_mem _ ht)
      rw [applySamples_cons, applyOne] at hx
      revert hx
      split
      · intro hx
        refine ih _ ?_ hg2 x hx
        intro y hy
        rcases mem_of_mem_set _ _ _ _ hy with h1 | h1
        · rw [h1]; exact hg s (by rw [filterMap_id_cons_some]; exact List.mem_cons_self _ _)
        · exact hb y h1
      · intro hx
        exact ih bufs hb hg2 x hx

lemma getD_map_const_of_lt (l : List α) (c d : β) :
    ∀ k : Nat, k < l.length → (l.map (fun _ => c)).getD k d = c := by
  induction l with
  | nil => intro k hk; simp at hk
  | cons b t ih =>
    intro k hk
    cases k with
    | zero => rfl
    | succ j =>
      simp only [List.map_cons, List.getD_cons_succ]
      exact ih j (by simpa using hk)

lemma getD_of_length_le (l : List α) (d : α) :
    ∀ k : Nat, l.length ≤ k → l.getD k d = d := by
  induction l with
  | nil => intro k _; cases k <;> rfl
  | cons b t ih =>
    intro k hk
    cases k with
    | zero => simp at hk
    | succ j =>
      simp only [List.getD_cons_succ]
      exact ih j (by simpa using hk)

lemma getD_map_zero (l : List ℚ) (k : Nat) :
    (l.map (fun _ => (0:ℚ))).getD k 0 = 0 := by
  by_cases hk : k < l.length
  · exact getD_map_const_of_lt l 0 0 k hk
  · exact getD_of_length_le _ _ k (by rw [List.length_map]; exact le_of_not_lt hk)

lemma map_const_eq_replicate (l : List α) (c : β) :
    l.map (fun _ => c) = List.replicate l.length c := by
  induction l with
  | nil => rfl
  | cons b t ih => simp [List.replicate_succ, ih]

lemma getD_mem_of_lt (l : List α) (d : α) :
    ∀ i : Nat, i < l.length → l.getD i d ∈ l := by
  induction l with
  | nil => intro i hi; simp at hi
  | cons b t ih =>
    intro i hi
    cases i with
    | zero => exact List.mem_cons_self _ _
    | succ j =>
      simp only [List.getD_cons_succ]
      exact List.mem_cons_of_mem _ (ih j (by simpa using hi))

lemma ramp_length (cfg : Config) : cfg.BRIGHTNESS_RAMP.length = 13 := rfl

lemma rustClamp_bounds (n : ℤ) : 0 ≤ rustClamp n 0 12 ∧ rustClamp n 0 12 ≤ 12 :=
  ⟨le_min (le_max_right n 0) (by norm_num), min_le_right _ _⟩

lemma guard_idx_lt (W H : Nat) (xv yv : ℤ) (hx0 : 0 ≤ xv) (hxW : xv < (W : ℤ))
    (hy0 : 0 ≤ yv) (hyH : yv < (H : ℤ)) : (yv * (W : ℤ) + xv).toNat < W * H := by
  have hW0 : (0 : ℤ) ≤ (W : ℤ) := by positivity
  have ht : 0 ≤ yv * (W : ℤ) := mul_nonneg hy0 hW0
  have h1 : yv * (W : ℤ) + xv < ((W * H : ℕ) : ℤ) := by
    have h2 : yv * (W : ℤ) ≤ ((H : ℤ) - 1) * (W : ℤ) :=
      mul_le_mul_of_nonneg_right (by omega) hW0
    push_cast
    nlinarith
  omega

lemma ramp_getD_mem (cfg : Config) (n : ℤ) :
    cfg.BRIGHTNESS_RAMP.getD ((rustClamp n 0 12).toNat) ' ' ∈ cfg.BRIGHTNESS_RAMP := by
  apply getD_mem_of_lt
  rw [ramp_length]
  have h := rustClamp_bounds n
  omega

lemma sampleAt_spec (cfg : Config) (sa ca sb cb jc js ic is : ℚ) (s : Sample)
    (h : sampleAt cfg sa ca sb cb jc js ic is = some s) :
    s.idx < cfg.WIDTH * cfg.HEIGHT ∧ s.glyph ∈ cfg.BRIGHTNESS_RAMP := by
  rw [sampleAt] at h
  simp only at h
  split at h
  · rename_i hg
    obtain ⟨hx0, hxW, hy0, hyH⟩ := hg
    rw [Option.some.injEq] at h
    subst h
    exact ⟨guard_idx_lt _ _ _ _ hx0 hxW hy0 hyH, ramp_getD_mem cfg _⟩
  · exact Option.noConfusion h

lemma innerTrace_spec (cfg : Config) (sa ca sb cb jc js : ℚ) :
    ∀ (k : Nat) (ic is : ℚ) (os : Option Sample),
      os ∈ innerTrace cfg sa ca sb cb jc js k ic is → ∀ s, os = some s →
        s.idx < cfg.WIDTH * cfg.HEIGHT ∧ s.glyph ∈ cfg.BRIGHTNESS_RAMP := by
  intro k
  induction k with
  | zero => intro ic is os hos; simp [innerTrace] at hos
  | succ k ih =>
    intro ic is os hos s hs
    rw [innerTrace] at hos
    rcases List.mem_cons.1 hos with h1 | h1
    · subst hs
      exact sampleAt_spec cfg sa ca sb cb jc js ic is s h1.symm
    · exact ih _ _ os h1 s hs

lemma outerTrace_spec (cfg : Config) (sa ca sb cb : ℚ) :
    ∀ (k : Nat) (jc js : ℚ) (os : Option Sample),
      os ∈ outerTrace cfg sa ca sb cb k jc js → ∀ s, os = some s →
        s.idx < cfg.WIDTH * cfg.HEIGHT ∧ s.glyph ∈ cfg.BRIGHTNESS_RAMP := by
  intro k
  induction k with
  | zero => intro jc js os hos; simp [outerTrace] at hos
  | succ k ih =>
    intro jc js os hos s hs
    rw [outerTrace] at hos
    rcases List.mem_append.1 hos with h1 | h1
    · exact innerTrace_spec cfg sa ca sb cb jc js _ _ _ os h1 s hs
    · exact ih _ _ os h1 s hs

lemma samples_spec (cfg : Config) (self : Donut) (os : Option Sample)
    (hos : os ∈ Donut.samples cfg self) (s : Sample) (hs : os = some s) :
    s.idx < cfg.WIDTH * cfg.HEIGHT ∧ s.glyph ∈ cfg.BRIGHTNESS_RAMP :=
  outerTrace_spec cfg _ _ _ _ _ _ _ os hos s hs

lemma renorm_close (P : ℚ) (h : |P - 1| ≤ 10101 / 1000000) :
    |P * ((3 - P) / 2) ^ 2 - 1| ≤ 1 / 10000 := by
  rw [abs_le] at h ⊢
  obtain ⟨hlo, hhi⟩ := h
  have key : P * ((3 - P) / 2) ^ 2 - 1 = (P - 1) ^ 2 * (P - 4) / 4 := by ring
  constructor
  · rw [key]
    have h1 : (P - 1) ^ 2 ≤ (10101 / 1000000 : ℚ) ^ 2 := by nlinarith
    have h2 : 4 - P ≤ 3 + 10101 / 1000000 := by linarith
    have h3 : (0:ℚ) ≤ 4 - P := by linarith
    have h4 : (P - 1) ^ 2 * (4 - P) ≤ (10101 / 1000000 : ℚ) ^ 2 * (3 + 10101 / 1000000) :=
      mul_le_mul h1 h2 h3 (by positivity)
    nlinarith
  · rw [key]
    have h3 : P - 4 ≤ 0 := by linarith
    nlinarith [sq_nonneg (P - 1)]

lemma updatePair_normSq (c s d : ℚ) :
    (updatePair c s d).1 ^ 2 + (updatePair c s d).2 ^ 2 =
      ((c ^ 2 + s ^ 2) * (1 + d ^ 2)) *
        ((3 - (c ^ 2 + s ^ 2) * (1 + d ^ 2)) / 2) ^ 2 := by
  rw [updatePair]
  ring

lemma updatePair_norm (c s d : ℚ) (hcs : |c ^ 2 + s ^ 2 - 1| ≤ 1 / 10000)
    (hd : |d| ≤ 1 / 10) :
    |(updatePair c s d).1 ^ 2 + (updatePair c s d).2 ^ 2 - 1| ≤ 1 / 10000 := by
  rw [updatePair_normSq]
  apply le_trans (renorm_close _ ?_) (by norm_num)
  rw [abs_le] at hcs hd ⊢
  obtain ⟨h1, h2⟩ := hcs
  obtain ⟨h3, h4⟩ := hd
  have hd2 : d ^ 2 ≤ 1 / 100 := by nlinarith
  have hd0 : (0:ℚ) ≤ d ^ 2 := sq_nonneg d
  constructor <;> nlinarith

lemma rotate_normOk (s : Donut) (da db : ℚ) (h : normOk s)
    (hda : |da| ≤ 1 / 10) (hdb : |db| ≤ 1 / 10) : normOk (s.rotate da db) := by
  obtain ⟨h1, h2⟩ := h
  exact ⟨updatePair_norm _ _ _ h1 hda, updatePair_norm _ _ _ h2 hdb⟩

lemma new_normOk : normOk Donut.new := by
  constructor <;> norm_num [Donut.new]

lemma applyRotates_normOk (ds : List (ℚ × ℚ)) :
    ∀ s : Donut, normOk s →
      (∀ p ∈ ds, |p.1| ≤ 1 / 10 ∧ |p.2| ≤ 1 / 10) →
      normOk (applyRotates s ds) := by
  induction ds with
  | nil => intro s hs _; exact hs
  | cons p ds ih =>
    intro s hs hds
    have hstep : applyRotates s (p :: ds) = applyRotates (s.rotate p.1 p.2) ds := rfl
    rw [hstep]
    rcases hds p (List.mem_cons_self _ _) with ⟨h1, h2⟩
    exact ih _ (rotate_normOk s p.1 p.2 hs h1 h2)
      (fun q hq => hds q (List.mem_cons_of_mem _ hq))

lemma reachable_normOk (s : Donut) (h : Reachable s) : normOk s := by
  induction h with
  | base => exact new_normOk
  | step t da db _ hda hdb ih => exact rotate_normOk t da db ih hda hdb

lemma updatePair_zero_exact (c s : ℚ) (h : c ^ 2 + s ^ 2 = 1) :
    updatePair c s 0 = (c, s) := by
  rw [updatePair]
  have h1 : c - 0 * s = c := by ring
  have h2 : s + 0 * c = s := by ring
  rw [h1, h2]
  have h3 : (3 - (c * c + s * s)) / 2 = 1 := by
    have : c * c + s * s = 1 := by nlinarith [h]
    rw [this]
    norm_num
  rw [h3, mul_one, mul_one]

lemma updatePair_zero_close (c s : ℚ) (h : |c ^ 2 + s ^ 2 - 1| ≤ 1 / 10000) :
    |(updatePair c s 0).1 - c| ≤ 1 / 10000 ∧
    |(updatePair c s 0).2 - s| ≤ 1 / 10000 := by
  rw [abs_le] at h
  obtain ⟨h1, h2⟩ := h
  have hc2 : c ^ 2 ≤ 1 + 1 / 10000 := by nlinarith [sq_nonneg s]
  have hs2 : s ^ 2 ≤ 1 + 1 / 10000 := by nlinarith [sq_nonneg c]
  have e1 : (updatePair c s 0).1 - c = c * (1 - (c ^ 2 + s ^ 2)) / 2 := by
    rw [updatePair]; ring
  have e2 : (updatePair c s 0).2 - s = s * (1 - (c ^ 2 + s ^ 2)) / 2 := by
    rw [updatePair]; ring
  have hq2 : (1 - (c ^ 2 + s ^ 2)) ^ 2 ≤ (1 / 10000 : ℚ) ^ 2 := by nlinarith
  constructor
  · rw [e1, abs_le]
    have hx2 : (c * (1 - (c ^ 2 + s ^ 2)) / 2) ^ 2 ≤ (1 + 1 / 10000) * (1 / 10000 : ℚ) ^ 2 / 4 := by
      have := mul_le_mul hc2 hq2 (sq_nonneg _) (by positivity)
      nlinarith
    constructor <;> nlinarith [sq_nonneg (c * (1 - (c ^ 2 + s ^ 2)) / 2 - 1 / 10000),
      sq_nonneg (c * (1 - (c ^ 2 + s ^ 2)) / 2 + 1 / 10000)]
  · rw [e2, abs_le]
    have hx2 : (s * (1 - (c ^ 2 + s ^ 2)) / 2) ^ 2 ≤ (1 + 1 / 10000) * (1 / 10000 : ℚ) ^ 2 / 4 := by
      have := mul_le_mul hs2 hq2 (sq_nonneg _) (by positivity)
      nlinarith
    constructor <;> nlinarith [sq_nonneg (s * (1 - (c ^ 2 + s ^ 2)) / 2 - 1 / 10000),
      sq_nonneg (s * (1 - (c ^ 2 + s ^ 2)) / 2 + 1 / 10000)]

lemma set_mem_of_lt (l : List α) (i : Nat) (a : α) (h : i < l.length) :
    a ∈ l.set i a := by
  have h2 := getD_set_self l i a a h
  have h3 := getD_mem_of_lt (l.set i a) a i (by rw [List.length_set]; exact h)
  rwa [h2] at h3

lemma cellVacant_spec (cfg : Config) (self : Donut) (k : Nat)
    (h : cellVacant cfg self k = true) :
    ∀ s ∈ (Donut.samples cfg self).filterMap id, s.idx = k → s.d ≤ 0 := by
  rw [cellVacant, List.all_eq_true] at h
  intro s hs hidx
  have h2 := h s hs
  rw [Bool.or_eq_true, Bool.not_eq_true', beq_eq_false_iff_ne] at h2
  rcases h2 with h2 | h2
  · exact absurd hidx h2
  · exact of_decide_eq_true h2

lemma samplesInBounds_true (cfg : Config) (self : Donut) :
    samplesInBounds cfg (Donut.samples cfg self) = true := by
  rw [samplesInBounds, List.all_eq_true]
  intro os hos
  cases os with
  | none => rfl
  | some s => exact decide_eq_true ((samples_spec cfg self _ hos s rfl).1)

lemma tiny_render_mem : ' ' ∈ (Donut.render_frame_in_place tinyCfg Donut.new
    (List.replicate 16 'x') (List.replicate 16 (3:ℚ))).1 := by
  rw [render_decomp, tiny_samples]
  have h1 : ((List.replicate 16 (3:ℚ)).map (fun _ => (0:ℚ))).getD 10 0 = 0 :=
    getD_map_zero _ _
  rw [applySamples, List.foldl_cons, List.foldl_nil, applyOne]
  rw [if_pos (by rw [h1]; norm_num)]
  exact set_mem_of_lt _ _ _ (by simp)

/-- C1: within one call of `render_frame_in_place`, the final depth stored at
any cell `k` equals the maximum closeness value among all samples that mapped
to `k` (with the cleared value `0` as the base, so a written cell holds
exactly the maximum sample closeness, which is attained by some sample
whenever it is positive), and the depth test is strict: a sample whose
closeness exactly equals the stored depth leaves both buffers unchanged, so
the earlier-written sample is kept. -/
theorem c1_depth_max (cfg : Config) (self : Donut) (out : List Char) (z : List ℚ)
    (k : Nat) (hk : k < z.length)
    (bufs : List Char × List ℚ) (s : Sample)
    (htie : s.d = bufs.2.getD s.idx 0) :
    (Donut.render_frame_in_place cfg self out z).2.getD k 0 =
      (cellDepths k (Donut.samples cfg self)).foldl max 0 ∧
    (0 < (Donut.render_frame_in_place cfg self out z).2.getD k 0 →
      (Donut.render_frame_in_place cfg self out z).2.getD k 0 ∈
        cellDepths k (Donut.samples cfg self)) ∧
    applyOne bufs (some s) = bufs := by
  have hlen : k < ((out.map (fun _ => cfg.C0), z.map (fun _ => (0:ℚ)))).2.length := by
    rw [List.length_map]; exact hk
  have hmain : (Donut.render_frame_in_place cfg self out z).2.getD k 0 =
      (cellDepths k (Donut.samples cfg self)).foldl max 0 := by
    rw [render_decomp, applySamples_depth _ _ _ hlen]
    rw [show ((out.map (fun _ => cfg.C0), z.map (fun _ => (0:ℚ)))).2.getD k 0 = 0 from
      getD_map_zero z k]
  refine ⟨hmain, ?_, applyOne_tie bufs s htie⟩
  intro hpos
  rw [hmain] at hpos ⊢
  rcases foldl_max_mem (cellDepths k (Donut.samples cfg self)) 0 with h | h
  · rw [h] at hpos; exact absurd hpos (lt_irrefl 0)
  · exact h

theorem c1_depth_max_witness :
    (Donut.render_frame_in_place tinyCfg Donut.new (List.replicate 16 'x')
        (List.replicate 16 (3:ℚ))).2.getD 10 0 =
      (cellDepths 10 (Donut.samples tinyCfg Donut.new)).foldl max 0 ∧
    (0 < (Donut.render_frame_in_place tinyCfg Donut.new (List.replicate 16 'x')
        (List.replicate 16 (3:ℚ))).2.getD 10 0 →
      (Donut.render_frame_in_place tinyCfg Donut.new (List.replicate 16 'x')
        (List.replicate 16 (3:ℚ))).2.getD 10 0 ∈
        cellDepths 10 (Donut.samples tinyCfg Donut.new)) ∧
    applyOne (['a'], [(2:ℚ)]) (some { idx := 0, d := 2, glyph := 'b' }) =
      (['a'], [(2:ℚ)]) :=
  c1_depth_max tinyCfg Donut.new (List.replicate 16 'x') (List.replicate 16 (3:ℚ))
    10 (by simp) (['a'], [(2:ℚ)]) { idx := 0, d := 2, glyph := 'b' } (by simp)

/-- C2: `render_frame_in_place` overwrites both caller-supplied buffers
entirely: its result is independent of the prior buffer contents (any two
prior contents of the same lengths yield identical frames), and every cell
holding no visible surface sample (no sample with positive closeness mapped
to it) ends with depth `0` and the background glyph `C0`. -/
theorem c2_buffer_reset (cfg : Config) (self : Donut)
    (out out' : List Char) (z z' : List ℚ) (k : Nat)
    (hlo : out.length = out'.length) (hlz : z.length = z'.length)
    (hko : k < out.length)
    (hvac : cellVacant cfg self k = true) :
    Donut.render_frame_in_place cfg self out z =
      Donut.render_frame_in_place cfg self out' z' ∧
    (Donut.render_frame_in_place cfg self out z).2.getD k 0 = 0 ∧
    (Donut.render_frame_in_place cfg self out z).1.getD k ' ' = cfg.C0 := by
  have hprior : Donut.render_frame_in_place cfg self out z =
      Donut.render_frame_in_place cfg self out' z' := by
    rw [render_decomp, render_decomp, map_const_eq_replicate out cfg.C0,
      map_const_eq_replicate out' cfg.C0, map_const_eq_replicate z (0:ℚ),
      map_const_eq_replicate z' (0:ℚ), hlo, hlz]
  have h0 : ((out.map (fun _ => cfg.C0), z.map (fun _ => (0:ℚ)))).2.getD k 0 = 0 :=
    getD_map_zero z k
  obtain ⟨hglyph, hdepth⟩ := applySamples_untouched (Donut.samples cfg self)
    (out.map (fun _ => cfg.C0), z.map (fun _ => (0:ℚ))) k ' ' h0
    (cellVacant_spec cfg self k hvac)
  refine ⟨hprior, ?_, ?_⟩
  · rw [render_decomp]; exact hdepth
  · rw [render_decomp, hglyph]
    exact getD_map_const_of_lt out cfg.C0 ' ' k hko

theorem c2_buffer_reset_witness :
    Donut.render_frame_in_place tinyCfg Donut.new (List.replicate 16 'x')
        (List.replicate 16 (3:ℚ)) =
      Donut.render_frame_in_place tinyCfg Donut.new (List.replicate 16 'y')
        (List.replicate 16 (7:ℚ)) ∧
    (Donut.render_frame_in_place tinyCfg Donut.new (List.replicate 16 'x')
        (List.replicate 16 (3:ℚ))).2.getD 3 0 = 0 ∧
    (Donut.render_frame_in_place tinyCfg Donut.new (List.replicate 16 'x')
        (List.replicate 16 (3:ℚ))).1.getD 3 ' ' = tinyCfg.C0 :=
  c2_buffer_reset tinyCfg Donut.new (List.replicate 16 'x') (List.replicate 16 'y')
    (List.replicate 16 (3:ℚ)) (List.replicate 16 (7:ℚ)) 3 (by simp) (by simp)
    (by simp) (by simp [cellVacant, tiny_samples])

/-- C3: every glyph present in the output buffer after
`render_frame_in_place` is one of the 13 configured ramp entries; the ramp
has exactly 13 entries and the brightness index is clamped into `[0, 12]`
before indexing, for any luminance value `n`, however far outside the range. -/
theorem c3_glyph_safety (cfg : Config) (self : Donut) (out : List Char) (z : List ℚ)
    (c : Char) (n : ℤ)
    (hc : c ∈ (Donut.render_frame_in_place cfg self out z).1) :
    c ∈ cfg.BRIGHTNESS_RAMP ∧ cfg.BRIGHTNESS_RAMP.length = 13 ∧
    0 ≤ rustClamp n 0 12 ∧ rustClamp n 0 12 ≤ 12 := by
  refine ⟨?_, ramp_length cfg, (rustClamp_bounds n).1, (rustClamp_bounds n).2⟩
  rw [render_decomp] at hc
  refine applySamples_glyphs _ _ _ ?_ ?_ c hc
  · intro x hx
    rw [List.mem_map] at hx
    obtain ⟨a, _, hx2⟩ := hx
    rw [← hx2, Config.BRIGHTNESS_RAMP]
    exact List.mem_cons_self _ _
  · intro s hs
    rw [List.mem_filterMap] at hs
    obtain ⟨os, hos, hid⟩ := hs
    exact (samples_spec cfg self os hos s hid).2

theorem c3_glyph_safety_witness :
    ' ' ∈ tinyCfg.BRIGHTNESS_RAMP ∧ tinyCfg.BRIGHTNESS_RAMP.length = 13 ∧
    0 ≤ rustClamp 1000 0 12 ∧ rustClamp 1000 0 12 ≤ 12 :=
  c3_glyph_safety tinyCfg Donut.new (List.replicate 16 'x') (List.replicate 16 (3:ℚ))
    ' ' 1000 tiny_render_mem

/-- C4: when both buffers have length exactly `WIDTH * HEIGHT`, every buffer
access of `render_frame_in_place` is in bounds: every sample that passes the
screen guard targets a cell index below `WIDTH * HEIGHT`, the guarded index
computation `y * WIDTH + x` always lands below `WIDTH * HEIGHT`, and the
rendered buffers keep length `WIDTH * HEIGHT`. -/
theorem c4_access_in_bounds (cfg : Config) (self : Donut) (out : List Char)
    (z : List ℚ) (x y : ℤ)
    (hout : out.length = cfg.WIDTH * cfg.HEIGHT)
    (hz : z.length = cfg.WIDTH * cfg.HEIGHT)
    (hx0 : 0 ≤ x) (hxW : x < (cfg.WIDTH : ℤ))
    (hy0 : 0 ≤ y) (hyH : y < (cfg.HEIGHT : ℤ)) :
    samplesInBounds cfg (Donut.samples cfg self) = true ∧
    (y * (cfg.WIDTH : ℤ) + x).toNat < cfg.WIDTH * cfg.HEIGHT ∧
    (Donut.render_frame_in_place cfg self out z).1.length = cfg.WIDTH * cfg.HEIGHT ∧
    (Donut.render_frame_in_place cfg self out z).2.length = cfg.WIDTH * cfg.HEIGHT := by
  obtain ⟨h1, h2⟩ := applySamples_length (Donut.samples cfg self)
    (out.map (fun _ => cfg.C0), z.map (fun _ => (0:ℚ)))
  refine ⟨samplesInBounds_true cfg self,
    guard_idx_lt cfg.WIDTH cfg.HEIGHT x y hx0 hxW hy0 hyH, ?_, ?_⟩
  · rw [render_decomp, h1, List.length_map]
    exact hout
  · rw [render_decomp, h2, List.length_map]
    exact hz

theorem c4_access_in_bounds_witness :
    samplesInBounds tinyCfg (Donut.samples tinyCfg Donut.new) = true ∧
    ((3 : ℤ) * (tinyCfg.WIDTH : ℤ) + 2).toNat < tinyCfg.WIDTH * tinyCfg.HEIGHT ∧
    (Donut.render_frame_in_place tinyCfg Donut.new (List.replicate 16 'x')
        (List.replicate 16 (3:ℚ))).1.length = tinyCfg.WIDTH * tinyCfg.HEIGHT ∧
    (Donut.render_frame_in_place tinyCfg Donut.new (List.replicate 16 'x')
        (List.replicate 16 (3:ℚ))).2.length = tinyCfg.WIDTH * tinyCfg.HEIGHT :=
  c4_access_in_bounds tinyCfg Donut.new (List.replicate 16 'x')
    (List.replicate 16 (3:ℚ)) 2 3 (by simp [tinyCfg, defaultConfig])
    (by simp [tinyCfg, defaultConfig]) (by norm_num)
    (by norm_num [tinyCfg, defaultConfig]) (by norm_num)
    (by norm_num [tinyCfg, defaultConfig])

/-- C5 counterexample: the claim that any step size not strictly positive
and less than one full turn is rejected as a fatal configuration error is
false for the upper bound.  A tube-angle step of `7` radians exceeds one
full turn (`TAU ≈ 6.283`), yet the configuration is accepted everywhere: the
iteration-count const evaluation succeeds (`NUM_J? = some 1`, no
compile-time error), construction succeeds, and the render sweep runs,
producing a surface sample — no rejection occurs at construction time,
compile time, or render time. -/
theorem c5_no_validation_counterexample :
    TAU < tinyCfg.J_STEP ∧
    Config.NUM_J? tinyCfg = some 1 ∧
    Donut.new = { a_cos := 1, a_sin := 0, b_cos := 1, b_sin := 0 } ∧
    Donut.samples tinyCfg Donut.new =
      [some { idx := 10, d := 1/5, glyph := ' ' }] := by
  refine ⟨?_, tiny_NUM_J?, rfl, tiny_samples⟩
  rw [tiny_J_STEP]
  norm_num [TAU]

/-- C5 amended: the source performs no explicit construction-time
validation and `Donut::new` always succeeds; a zero angular step is
nevertheless a fatal compile-time configuration error upon use of the
rasterizer, because the iteration-count const evaluation overflows
(`usize::MAX + 1` after the round-up branch, modelled `NUM_J? = none`), so
a zero step can never cause a non-terminating or empty sweep at run time.
Steps that are strictly positive but not less than one full turn are
accepted, not rejected.  The default steps are strictly positive and less
than one full turn, with finite nonempty sweeps (`NUM_J = 90`,
`NUM_I = 315`). -/
theorem c5_no_validation_amended :
    cfgZero.J_STEP = 0 ∧ Config.NUM_J? cfgZero = none ∧
    0 < defaultConfig.J_STEP ∧ defaultConfig.J_STEP < TAU ∧
    0 < defaultConfig.I_STEP ∧ defaultConfig.I_STEP < TAU ∧
    Config.NUM_J? defaultConfig = some 90 ∧
    Config.NUM_I? defaultConfig = some 315 ∧
    Donut.new = { a_cos := 1, a_sin := 0, b_cos := 1, b_sin := 0 } := by
  have h0 : cfgZero.J_STEP = 0 := by
    norm_num [Config.J_STEP, cfgZero, defaultConfig]
  refine ⟨h0, ?_, ?_, ?_, ?_, ?_, default_NUM_J?, default_NUM_I?, rfl⟩
  · rw [Config.NUM_J?, if_pos h0]
  · rw [default_J_STEP]; norm_num
  · rw [default_J_STEP]; norm_num [TAU]
  · rw [default_I_STEP]; norm_num
  · rw [default_I_STEP]; norm_num [TAU]

/-- C6: for the incremental-recurrence strategy (modelling the `f32`
arithmetic exactly over `ℚ`), after any number of successive `rotate` calls
with small deltas (`|δ| ≤ 1/10`) starting from `Donut::new`, the cached
(cos, sin) pair of each of the two angles stays within `10⁻⁴` of unit norm. -/
theorem c6_norm_stability (ds : List (ℚ × ℚ)) (hds : smallDeltas ds = true) :
    normOk (applyRotates Donut.new ds) := by
  have hprop : ∀ p ∈ ds, |p.1| ≤ 1 / 10 ∧ |p.2| ≤ 1 / 10 := by
    rw [smallDeltas, List.all_eq_true] at hds
    intro p hp
    have h2 := hds p hp
    rw [Bool.and_eq_true, decide_eq_true_eq, decide_eq_true_eq] at h2
    exact h2
  exact applyRotates_normOk ds Donut.new new_normOk hprop

theorem c6_norm_stability_witness :
    normOk (applyRotates Donut.new [((1:ℚ)/100, (1:ℚ)/50)]) :=
  c6_norm_stability [((1:ℚ)/100, (1:ℚ)/50)] (by
    simp only [smallDeltas, List.all_cons, List.all_nil, Bool.and_true,
      Bool.and_eq_true, decide_eq_true_eq]
    constructor <;> rw [abs_le] <;> constructor <;> norm_num)

/-- C7: for every orientation reachable from `Donut::new` by small-delta
rotations, `rotate(0, 0)` moves each of the four cached components by at
most `10⁻⁴`; and when both cached pairs are exactly unit-norm (as in a
freshly constructed `Donut`), `rotate(0, 0)` leaves the orientation exactly
unchanged. -/
theorem c7_rotate_zero (s : Donut) (h : Reachable s) :
    |(s.rotate 0 0).a_cos - s.a_cos| ≤ 1 / 10000 ∧
    |(s.rotate 0 0).a_sin - s.a_sin| ≤ 1 / 10000 ∧
    |(s.rotate 0 0).b_cos - s.b_cos| ≤ 1 / 10000 ∧
    |(s.rotate 0 0).b_sin - s.b_sin| ≤ 1 / 10000 ∧
    (s.a_cos ^ 2 + s.a_sin ^ 2 = 1 → s.b_cos ^ 2 + s.b_sin ^ 2 = 1 →
      s.rotate 0 0 = s) := by
  obtain ⟨h1, h2⟩ := reachable_normOk s h
  obtain ⟨ha1, ha2⟩ := updatePair_zero_close s.a_cos s.a_sin h1
  obtain ⟨hb1, hb2⟩ := updatePair_zero_close s.b_cos s.b_sin h2
  refine ⟨ha1, ha2, hb1, hb2, ?_⟩
  intro hea heb
  have ea := updatePair_zero_exact s.a_cos s.a_sin hea
  have eb := updatePair_zero_exact s.b_cos s.b_sin heb
  cases s with
  | mk c1 s1 c2 s2 =>
    simp only [Donut.rotate] at ea eb ⊢
    rw [ea, eb]

theorem c7_rotate_zero_witness :
    |(Donut.new.rotate 0 0).a_cos - Donut.new.a_cos| ≤ 1 / 10000 ∧
    |(Donut.new.rotate 0 0).a_sin - Donut.new.a_sin| ≤ 1 / 10000 ∧
    |(Donut.new.rotate 0 0).b_cos - Donut.new.b_cos| ≤ 1 / 10000 ∧
    |(Donut.new.rotate 0 0).b_sin - Donut.new.b_sin| ≤ 1 / 10000 ∧
    (Donut.new.a_cos ^ 2 + Donut.new.a_sin ^ 2 = 1 →
      Donut.new.b_cos ^ 2 + Donut.new.b_sin ^ 2 = 1 →
      Donut.new.rotate 0 0 = Donut.new) :=
  c7_rotate_zero Donut.new Reachable.base

/-- C8: `rotate` and `render_frame_in_place` are deterministic and free of
hidden state: two orientations with identical fields, after the identical
sequence of `rotate` calls and given identical buffers, are in identical
states and produce identical rendered frames.  In the embedding `rotate` is
a pure function of the four orientation fields alone, which is the shallow
form of the no-side-effects part of the claim. -/
theorem c8_determinism (cfg : Config) (s1 s2 : Donut) (ds : List (ℚ × ℚ))
    (out1 out2 : List Char) (z1 z2 : List ℚ)
    (hac : s1.a_cos = s2.a_cos) (has2 : s1.a_sin = s2.a_sin)
    (hbc : s1.b_cos = s2.b_cos) (hbs : s1.b_sin = s2.b_sin)
    (ho : out1 = out2) (hz : z1 = z2) :
    applyRotates s1 ds = applyRotates s2 ds ∧
    Donut.render_frame_in_place cfg (applyRotates s1 ds) out1 z1 =
      Donut.render_frame_in_place cfg (applyRotates s2 ds) out2 z2 := by
  have hs : s1 = s2 := by
    cases s1; cases s2
    simp_all
  subst hs
  subst ho
  subst hz
  exact ⟨rfl, rfl⟩

theorem c8_determinism_witness :
    applyRotates Donut.new [((1:ℚ)/100, (2:ℚ)/100)] =
      applyRotates (Donut.mk 1 0 1 0) [((1:ℚ)/100, (2:ℚ)/100)] ∧
    Donut.render_frame_in_place tinyCfg
        (applyRotates Donut.new [((1:ℚ)/100, (2:ℚ)/100)])
        (List.replicate 16 'x') (List.replicate 16 (3:ℚ)) =
      Donut.render_frame_in_place tinyCfg
        (applyRotates (Donut.mk 1 0 1 0) [((1:ℚ)/100, (2:ℚ)/100)])
        (List.replicate 16 'x') (List.replicate 16 (3:ℚ)) :=
  c8_determinism tinyCfg Donut.new (Donut.mk 1 0 1 0) [((1:ℚ)/100, (2:ℚ)/100)]
    (List.replicate 16 'x') (List.replicate 16 'x')
    (List.replicate 16 (3:ℚ)) (List.replicate 16 (3:ℚ))
    rfl rfl rfl rfl rfl rfl

/-- C9: construction yields the identity orientation (`cos = 1`, `sin = 0`
for both axes) with no error conditions, and the default configuration
matches the documented values: width 80, height 22, viewer distance 5,
brightness factor 8, tube-angle step `7/100`, ring-angle step `2/100`, and
the 13-glyph ramp from dimmest to brightest. -/
theorem c9_default_construction :
    Donut.new.a_cos = 1 ∧ Donut.new.a_sin = 0 ∧
    Donut.new.b_cos = 1 ∧ Donut.new.b_sin = 0 ∧
    defaultConfig.WIDTH = 80 ∧ defaultConfig.HEIGHT = 22 ∧
    defaultConfig.VIEWER_DISTANCE = 5 ∧ defaultConfig.BRIGHTNESS_FACTOR = 8 ∧
    defaultConfig.J_STEP = 7 / 100 ∧ defaultConfig.I_STEP = 2 / 100 ∧
    defaultConfig.BRIGHTNESS_RAMP =
      [' ', '.', ',', '-', '~', ':', ';', '=', '!', '*', '#', '$', '@'] :=
  ⟨rfl, rfl, rfl, rfl, rfl, rfl, rfl, rfl, default_J_STEP, default_I_STEP, rfl⟩

/-- C10: the two angle updates inside `rotate` do not interfere: the
resulting A pair depends only on the prior A pair and `da` (never on `db`
or the B fields), and symmetrically the resulting B pair depends only on
the prior B pair and `db`. -/
theorem c10_noninterference (s1 s2 t1 t2 : Donut) (da da1 da2 db db1 db2 : ℚ)
    (hac : s1.a_cos = s2.a_cos) (has2 : s1.a_sin = s2.a_sin)
    (hbc : t1.b_cos = t2.b_cos) (hbs : t1.b_sin = t2.b_sin) :
    ((s1.rotate da db1).a_cos = (s2.rotate da db2).a_cos ∧
     (s1.rotate da db1).a_sin = (s2.rotate da db2).a_sin) ∧
    ((t1.rotate da1 db).b_cos = (t2.rotate da2 db).b_cos ∧
     (t1.rotate da1 db).b_sin = (t2.rotate da2 db).b_sin) := by
  refine ⟨⟨?_, ?_⟩, ?_, ?_⟩
  · show (updatePair s1.a_cos s1.a_sin da).1 = (updatePair s2.a_cos s2.a_sin da).1
    rw [hac, has2]
  · show (updatePair s1.a_cos s1.a_sin da).2 = (updatePair s2.a_cos s2.a_sin da).2
    rw [hac, has2]
  · show (updatePair t1.b_cos t1.b_sin db).1 = (updatePair t2.b_cos t2.b_sin db).1
    rw [hbc, hbs]
  · show (updatePair t1.b_cos t1.b_sin db).2 = (updatePair t2.b_cos t2.b_sin db).2
    rw [hbc, hbs]

theorem c10_noninterference_witness :
    (((Donut.mk 1 0 5 7).rotate (1/2) 5).a_cos =
        ((Donut.mk 1 0 2 3).rotate (1/2) 6).a_cos ∧
     ((Donut.mk 1 0 5 7).rotate (1/2) 5).a_sin =
        ((Donut.mk 1 0 2 3).rotate (1/2) 6).a_sin) ∧
    (((Donut.mk 4 4 1 2).rotate 3 (1/3)).b_cos =
        ((Donut.mk 9 9 1 2).rotate 4 (1/3)).b_cos ∧
     ((Donut.mk 4 4 1 2).rotate 3 (1/3)).b_sin =
        ((Donut.mk 9 9 1 2).rotate 4 (1/3)).b_sin) :=
  c10_noninterference (Donut.mk 1 0 5 7) (Donut.mk 1 0 2 3)
    (Donut.mk 4 4 1 2) (Donut.mk 9 9 1 2) (1/2) 3 4 (1/3) 5 6 rfl rfl rfl rfl
